import Mathlib

/-!
# safe-transaction: the payment idempotency handler and the user handlers

A shallow embedding of `src/main.go` (`getUsers`, `createUser`, `createPayment`).

* Go `int` values (ids, amounts) are `Int`; the code does no arithmetic on them, and the
  `int64 -> int` conversion of `LastInsertId` is the identity on a 64-bit platform.  The only
  place where the width shows is `BindJSON`, which refuses an integer literal outside int64.
* The relational store is explicit state: two tables and two auto-increment counters.
  `external_id` values are compared as exact strings, a `SELECT ... WHERE external_id = ?`
  yields the first matching row, and a refused INSERT leaves tables and counters untouched.
* Every statement a handler sends to the store can be made to fail by an injected error
  (`Option String`, `none` meaning that the store executes the statement); a statement that
  fails this way is not executed.
* `encoding/json` writes a nil slice as `null` and a non-nil slice as an array, so slices
  keep their nil-ness (`Slice`).
* A handler returns the response writer, the store after the call, and the list of the
  statements it issued, in order.
-/

namespace SafeTransaction

/-! ## Data model (`src/main.go` lines 38-49) -/

/-- The `User` struct. -/
structure User where
  ID : Int
  Name : String
  Email : String
deriving DecidableEq, Repr

/-- The `Payment` struct. -/
structure Payment where
  ID : Int
  ExternalId : String
  Amount : Int
  Status : String
deriving DecidableEq, Repr

/-! ## The store -/

/-- The two tables and their auto-increment counters. -/
structure Store where
  users : List User
  payments : List Payment
  nextUserId : Int
  nextPaymentId : Int
deriving DecidableEq, Repr

/-- The uniqueness invariant of the `payments` table: rows have pairwise-distinct
`external_id`. -/
def Store.Unique (s : Store) : Prop :=
  (s.payments.map Payment.ExternalId).Nodup

instance (s : Store) : Decidable s.Unique := by
  unfold Store.Unique; infer_instance

/-- Number of `payments` rows carrying the external id `e`. -/
def Store.rowsFor (s : Store) (e : String) : Nat :=
  (s.payments.map Payment.ExternalId).count e

/-- Modelled from the spec: the driver error of a uniqueness violation on
`payments.external_id` (the schema and the driver are not under `src/`). -/
def duplicateEntry (e : String) : String :=
  "Error 1062 (23000): Duplicate entry '" ++ e ++ "' for key 'payments.external_id'"

/-- Modelled from the spec: `SELECT id, external_id, amount, status FROM payments WHERE
external_id = ?` on the table `payments(id PK, external_id UNIQUE, amount, status)`; the
first matching row, if any. -/
def Store.selectPayment (s : Store) (e : String) : Option Payment :=
  s.payments.find? (fun r => r.ExternalId == e)

/-- Modelled from the spec: `INSERT INTO payments(external_id, amount, status)` on the table
`payments(id PK, external_id UNIQUE, amount, status)`: refused when a row with that
`external_id` exists, otherwise a row with a generated id is added. -/
def Store.insertPayment (s : Store) (e : String) (a : Int) (st : String) :
    Except String (Int × Store) :=
  if s.payments.any (fun r => r.ExternalId == e) then
    .error (duplicateEntry e)
  else
    .ok (s.nextPaymentId,
      { s with
        payments := s.payments ++ [⟨s.nextPaymentId, e, a, st⟩]
        nextPaymentId := s.nextPaymentId + 1 })

/-- Modelled from the spec: `SELECT id, name, email FROM users` on `users(id PK, name,
email)`, rows in table order. -/
def Store.selectUsers (s : Store) : List User := s.users

/-- Modelled from the spec: `INSERT INTO users(name,email)` on `users(id PK, name, email)`,
no uniqueness constraint besides the generated id. -/
def Store.insertUser (s : Store) (name email : String) : Int × Store :=
  (s.nextUserId,
    { s with
      users := s.users ++ [⟨s.nextUserId, name, email⟩]
      nextUserId := s.nextUserId + 1 })

/-- The statements the handlers send to the store. -/
inductive Stmt where
  | selectPayment (e : String)
  | insertPayment (e : String) (a : Int) (st : String)
  | selectUsers
  | insertUser (name email : String)
deriving DecidableEq, Repr

/-! ## The `database/sql` calls of the handlers -/

/-- The error `QueryRow(...).Scan` returns when the result set is empty. -/
def errNoRows : String := "sql: no rows in result set"

/-- The call `db.QueryRow("SELECT ... FROM payments WHERE external_id = ?", e).Scan(...)`:
an injected error, `errNoRows`, or the first matching row. -/
def queryRowPayment (s : Store) (fault : Option String) (e : String) : Except String Payment :=
  match fault with
  | some err => .error err
  | none =>
    match s.selectPayment e with
    | some r => .ok r
    | none => .error errNoRows

/-- The call `db.Exec("INSERT INTO payments(external_id, amount, status) ...")`: the result
(`LastInsertId` or the error) and the store afterwards.  An injected error leaves the store
as it was. -/
def execInsertPayment (s : Store) (fault : Option String) (e : String) (a : Int) (st : String) :
    Except String Int × Store :=
  match fault with
  | some err => (.error err, s)
  | none =>
    match s.insertPayment e a st with
    | .error err => (.error err, s)
    | .ok (id, s1) => (.ok id, s1)

/-- The call `db.Query("SELECT id, name, email FROM users")`. -/
def queryUsers (s : Store) (fault : Option String) : Except String (List User) :=
  match fault with
  | some err => .error err
  | none => .ok s.selectUsers

/-- The call `db.Exec("INSERT INTO users(name,email) VALUES(?,?)", ...)`. -/
def execInsertUser (s : Store) (fault : Option String) (name email : String) :
    Except String Int × Store :=
  match fault with
  | some err => (.error err, s)
  | none =>
    let r := s.insertUser name email
    (.ok r.1, r.2)

/-! ## Request bodies and `BindJSON` -/

/-- What the JSON decoder finds in a request body for one field of the target struct: no such
key, the literal `null`, a value of the field's type, or a value of another JSON type. -/
inductive Field (α : Type) where
  | absent
  | null
  | value (v : α)
  | mismatch
deriving DecidableEq, Repr

/-- A request body as the decoder sees it for a target struct whose fields are described by
`F`: not a JSON document for a struct at all, or a JSON object (the top-level literal `null`
behaves as the object with no key). -/
inductive ReqBody (F : Type) where
  | malformed
  | object (fields : F)
deriving DecidableEq, Repr

/-- The fields of `Payment` in a request body (json tags `id`, `external_id`, `amount`,
`status`). -/
structure PaymentFields where
  id : Field Int
  external_id : Field String
  amount : Field Int
  status : Field String
deriving DecidableEq, Repr

/-- The fields of `User` in a request body (json tags `id`, `name`, `email`). -/
structure UserFields where
  id : Field Int
  name : Field String
  email : Field String
deriving DecidableEq, Repr

/-- Whether an integer literal fits Go's 64-bit `int`. -/
def fitsInt (n : Int) : Bool := decide (-(2 : Int) ^ 63 ≤ n) && decide (n < (2 : Int) ^ 63)

/-- Decoding one string field: the value stored in the struct and whether an error was
recorded.  An absent or `null` field leaves the zero value and is no error. -/
def decodeString : Field String → String × Bool
  | .value v => (v, false)
  | .mismatch => ("", true)
  | _ => ("", false)

/-- Decoding one `int` field; an integer literal outside int64 is a decoding error. -/
def decodeInt : Field Int → Int × Bool
  | .value v => if fitsInt v then (v, false) else (0, true)
  | .mismatch => (0, true)
  | _ => (0, false)

/-- The decoding `BindJSON` performs into a zero `Payment`: the struct as filled and whether
decoding failed.  The struct carries no `binding` tag, so nothing is validated after
decoding. -/
def decodePayment : ReqBody PaymentFields → Payment × Bool
  | .malformed => (⟨0, "", 0, ""⟩, true)
  | .object b =>
    let i := decodeInt b.id
    let e := decodeString b.external_id
    let a := decodeInt b.amount
    let st := decodeString b.status
    (⟨i.1, e.1, a.1, st.1⟩, i.2 || e.2 || a.2 || st.2)

/-- The decoding `BindJSON` performs into a zero `User`. -/
def decodeUser : ReqBody UserFields → User × Bool
  | .malformed => (⟨0, "", ""⟩, true)
  | .object b =>
    let i := decodeInt b.id
    let n := decodeString b.name
    let m := decodeString b.email
    (⟨i.1, n.1, m.1⟩, i.2 || n.2 || m.2)

/-! ## The response writer -/

/-- A Go slice: `none` is the nil slice, `some l` a non-nil slice with elements `l`. -/
abbrev Slice (α : Type) := Option (List α)

/-- The built-in `append(s, x)`. -/
def Slice.append {α : Type} (s : Slice α) (x : α) : Slice α :=
  match s with
  | none => some [x]
  | some l => some (l ++ [x])

/-- The elements of a slice. -/
def Slice.elems {α : Type} (s : Slice α) : List α :=
  match s with
  | none => []
  | some l => l

/-- The values the handlers pass to `c.JSON`. -/
inductive Body where
  | payment (p : Payment)
  | user (u : User)
  | users (us : Slice User)
  | errorH (msg : String)
  | text (s : String)
deriving DecidableEq, Repr

/-- JSON documents, as far as the handlers produce them. -/
inductive Json where
  | null
  | num (n : Int)
  | str (s : String)
  | arr (items : List Json)
  | obj (members : List (String × Json))

/-- The encoding of a `User` (json tags of the struct). -/
def User.toJson (u : User) : Json :=
  .obj [("id", .num u.ID), ("name", .str u.Name), ("email", .str u.Email)]

/-- The encoding of a `Payment` (json tags of the struct). -/
def Payment.toJson (p : Payment) : Json :=
  .obj [("id", .num p.ID), ("external_id", .str p.ExternalId), ("amount", .num p.Amount),
    ("status", .str p.Status)]

/-- The JSON `c.JSON` writes for a value: a nil slice is encoded as `null`, a non-nil slice
as an array, `gin.H{"error": msg}` as an object with the one key. -/
def Body.toJson : Body → Json
  | .payment p => p.toJson
  | .user u => u.toJson
  | .users none => .null
  | .users (some l) => .arr (l.map User.toJson)
  | .errorH msg => .obj [("error", .str msg)]
  | .text s => .str s

/-- The response writer of a `gin.Context`: the status, whether the header has been written,
and the bodies written so far. -/
structure Ctx where
  status : Nat
  written : Bool
  body : List Body
deriving DecidableEq, Repr

/-- The writer a handler starts with. -/
def Ctx.new : Ctx := ⟨200, false, []⟩

/-- The method `c.Status(code)`: once the header is written the status no longer changes. -/
def Ctx.Status (c : Ctx) (code : Nat) : Ctx :=
  if 0 < code ∧ c.status ≠ code then
    (if c.written then c else { c with status := code })
  else c

/-- The method `c.JSON(code, obj)`: set the status, then write the header and the body. -/
def Ctx.JSON (c : Ctx) (code : Nat) (obj : Body) : Ctx :=
  let c1 := c.Status code
  { c1 with written := true, body := c1.body ++ [obj] }

/-- The method `c.AbortWithStatus(code)`: set the status and write the header now. -/
def Ctx.AbortWithStatus (c : Ctx) (code : Nat) : Ctx :=
  let c1 := c.Status code
  { c1 with written := true }

/-- The method `c.BindJSON(&p)` for a `Payment`: the struct as filled, whether binding failed,
and the writer (a failed binding aborts with status 400). -/
def bindPayment (c : Ctx) (body : ReqBody PaymentFields) : Payment × Bool × Ctx :=
  let d := decodePayment body
  if d.2 then (d.1, true, c.AbortWithStatus 400) else (d.1, false, c)

/-- The method `c.BindJSON(&u)` for a `User`. -/
def bindUser (c : Ctx) (body : ReqBody UserFields) : User × Bool × Ctx :=
  let d := decodeUser body
  if d.2 then (d.1, true, c.AbortWithStatus 400) else (d.1, false, c)

/-! ## The handlers -/

/-- What a handler call leaves behind: the response writer, the store, and the statements it
sent to the store, in order. -/
structure Result where
  ctx : Ctx
  store : Store
  log : List Stmt
deriving DecidableEq, Repr

/-- Injected errors for the three statements of `createPayment`: the initial SELECT, the
INSERT, and the SELECT after a failed INSERT. -/
structure PaymentFaults where
  sel1 : Option String
  ins : Option String
  sel2 : Option String
deriving DecidableEq, Repr

/-- The store executes every statement. -/
def PaymentFaults.none : PaymentFaults := ⟨Option.none, Option.none, Option.none⟩

/-- The handler `getUsers` (lines 116-131). -/
def getUsers (s : Store) (fault : Option String) : Result :=
  let c := Ctx.new
  match queryUsers s fault with
  | .error err => ⟨c.JSON 500 (.text err), s, [.selectUsers]⟩
  | .ok rows =>
    let users : Slice User := rows.foldl (fun acc u => Slice.append acc u) Option.none
    ⟨c.JSON 200 (.users users), s, [.selectUsers]⟩

/-- The handler `createUser` (lines 133-150); the result of `BindJSON` is not looked at. -/
def createUser (s : Store) (fault : Option String) (body : ReqBody UserFields) : Result :=
  let b := bindUser Ctx.new body
  let u := b.1
  let c := b.2.2
  match execInsertUser s fault u.Name u.Email with
  | (.error err, s1) => ⟨c.JSON 500 (.text err), s1, [.insertUser u.Name u.Email]⟩
  | (.ok id, s1) => ⟨c.JSON 200 (.user { u with ID := id }), s1, [.insertUser u.Name u.Email]⟩

/-- The handler `createPayment` (lines 152-203). -/
def createPayment (s : Store) (f : PaymentFaults) (body : ReqBody PaymentFields) : Result :=
  let b := bindPayment Ctx.new body
  let p := b.1
  let c := b.2.2
  if b.2.1 then
    ⟨c.JSON 400 (.errorH "invalid request."), s, []⟩
  else
    -- check if payment already exists: the row and the error are never read
    let _existing := queryRowPayment s f.sel1 p.ExternalId
    match execInsertPayment s f.ins p.ExternalId p.Amount "SUCCESS" with
    | (.error err, s1) =>
      match queryRowPayment s1 f.sel2 p.ExternalId with
      | .ok existing =>
        ⟨c.JSON 200 (.payment existing), s1,
          [.selectPayment p.ExternalId, .insertPayment p.ExternalId p.Amount "SUCCESS",
            .selectPayment p.ExternalId]⟩
      | .error _ =>
        ⟨c.JSON 500 (.errorH err), s1,
          [.selectPayment p.ExternalId, .insertPayment p.ExternalId p.Amount "SUCCESS",
            .selectPayment p.ExternalId]⟩
    | (.ok id, s1) =>
      ⟨c.JSON 200 (.payment { p with ID := id, Status := "SUCCESS" }), s1,
        [.selectPayment p.ExternalId, .insertPayment p.ExternalId p.Amount "SUCCESS"]⟩

/-- The insert-first handler: `createPayment` with the initial existence check (lines 159-164)
deleted, everything else as in the source. -/
def createPaymentInsertFirst (s : Store) (f : PaymentFaults) (body : ReqBody PaymentFields) :
    Result :=
  let b := bindPayment Ctx.new body
  let p := b.1
  let c := b.2.2
  if b.2.1 then
    ⟨c.JSON 400 (.errorH "invalid request."), s, []⟩
  else
    match execInsertPayment s f.ins p.ExternalId p.Amount "SUCCESS" with
    | (.error err, s1) =>
      match queryRowPayment s1 f.sel2 p.ExternalId with
      | .ok existing =>
        ⟨c.JSON 200 (.payment existing), s1,
          [.insertPayment p.ExternalId p.Amount "SUCCESS", .selectPayment p.ExternalId]⟩
      | .error _ =>
        ⟨c.JSON 500 (.errorH err), s1,
          [.insertPayment p.ExternalId p.Amount "SUCCESS", .selectPayment p.ExternalId]⟩
    | (.ok id, s1) =>
      ⟨c.JSON 200 (.payment { p with ID := id, Status := "SUCCESS" }), s1,
        [.insertPayment p.ExternalId p.Amount "SUCCESS"]⟩

/-- A sequence of `createPayment` calls executed one after another: the store after the last
one. -/
def runPayments (s : Store) : List (PaymentFaults × ReqBody PaymentFields) → Store
  | [] => s
  | (f, body) :: rest => runPayments (createPayment s f body).store rest

/-! ## Concurrent calls of `createPayment`

The handler takes no lock and opens no transaction, so between two of its statements other
calls may run theirs.  A call is cut at its store statements; a schedule names, step after
step, the call whose next statement the store executes. -/

/-- The branch on which a call responded. -/
inductive Path where
  | rejected
  | created
  | alreadyExists
  | failed
deriving DecidableEq, Repr

/-- Where a call stands: before the initial SELECT, before the INSERT, before the re-read that
follows a failed INSERT (whose error it keeps), or after its response. -/
inductive Pc where
  | start
  | checked
  | conflict (err : String)
  | done (resp : Ctx) (path : Path)
deriving DecidableEq, Repr

/-- A call in flight: the bound request, the injected errors, the writer, and where it
stands. -/
structure Call where
  p : Payment
  f : PaymentFaults
  ctx : Ctx
  pc : Pc
deriving DecidableEq, Repr

/-- Lines 153-157: binding the body; a body that does not bind is answered at once. -/
def Call.start (f : PaymentFaults) (body : ReqBody PaymentFields) : Call :=
  let b := bindPayment Ctx.new body
  if b.2.1 then
    ⟨b.1, f, b.2.2, .done (b.2.2.JSON 400 (.errorH "invalid request.")) .rejected⟩
  else
    ⟨b.1, f, b.2.2, .start⟩

/-- The next store statement of a call (lines 159-201), run on the current store. -/
def stepCall (c : Call) (s : Store) : Call × Store :=
  match c.pc with
  | .start =>
    let _existing := queryRowPayment s c.f.sel1 c.p.ExternalId
    ({ c with pc := .checked }, s)
  | .checked =>
    match execInsertPayment s c.f.ins c.p.ExternalId c.p.Amount "SUCCESS" with
    | (.error err, s1) => ({ c with pc := .conflict err }, s1)
    | (.ok id, s1) =>
      ({ c with
         pc := .done (c.ctx.JSON 200 (.payment { c.p with ID := id, Status := "SUCCESS" }))
           .created }, s1)
  | .conflict err =>
    match queryRowPayment s c.f.sel2 c.p.ExternalId with
    | .ok existing =>
      ({ c with pc := .done (c.ctx.JSON 200 (.payment existing)) .alreadyExists }, s)
    | .error _ => ({ c with pc := .done (c.ctx.JSON 500 (.errorH err)) .failed }, s)
  | .done _ _ => (c, s)

/-- The response of a call, once it has responded. -/
def Call.response? (c : Call) : Option Ctx :=
  match c.pc with
  | .done r _ => some r
  | _ => none

/-- The branch a call responded on, once it has responded. -/
def Call.path? (c : Call) : Option Path :=
  match c.pc with
  | .done _ q => some q
  | _ => none

/-- Number of store statements a call may still issue. -/
def Pc.remaining : Pc → Nat
  | .start => 3
  | .checked => 2
  | .conflict _ => 1
  | .done _ _ => 0

/-- Let the call at position `i` run its next statement. -/
def stepAt : Nat → List Call → Store → List Call × Store
  | _, [], s => ([], s)
  | 0, c :: cs, s => ((stepCall c s).1 :: cs, (stepCall c s).2)
  | i + 1, c :: cs, s => (c :: (stepAt i cs s).1, (stepAt i cs s).2)

/-- The shared store and the calls in flight. -/
structure Sys where
  store : Store
  calls : List Call
deriving DecidableEq, Repr

/-- One scheduling step. -/
def Sys.step (σ : Sys) (i : Nat) : Sys :=
  ⟨(stepAt i σ.calls σ.store).2, (stepAt i σ.calls σ.store).1⟩

/-- A whole schedule. -/
def Sys.run (σ : Sys) (sched : List Nat) : Sys :=
  sched.foldl Sys.step σ

/-- The calls for the given bodies, all about to start, on the store `s`; the store executes
every statement. -/
def Sys.init (s : Store) (bodies : List (ReqBody PaymentFields)) : Sys :=
  ⟨s, bodies.map (Call.start PaymentFaults.none)⟩

/-- Every call has responded. -/
def Sys.allDone (σ : Sys) : Prop :=
  ∀ c ∈ σ.calls, c.pc.remaining = 0

/-- Number of calls that responded on the `created` branch. -/
def Sys.createdCount (σ : Sys) : Nat :=
  σ.calls.countP (fun c => decide (c.path? = some Path.created))

/-- What holds of a call's position while calls for the external id `e` run on a store that
executes every statement: a call whose INSERT failed, or that has responded, finds a row for
`e` in the store, and a response is 200 with that row. -/
def PcGood (e : String) (st : Store) : Pc → Prop
  | .start => True
  | .checked => True
  | .conflict _ => st.selectPayment e ≠ none
  | .done r q =>
    ∃ row, st.selectPayment e = some row ∧ r = ⟨200, true, [.payment row]⟩ ∧
      (q = .created ∨ q = .alreadyExists)

/-- The invariant of one call for the external id `e` on store `st`. -/
def Good (e : String) (st : Store) (c : Call) : Prop :=
  c.p.ExternalId = e ∧ c.f = PaymentFaults.none ∧ c.ctx = Ctx.new ∧ PcGood e st c.pc

/-- Store `st2` still answers a query for `e` with the row `st1` answered with. -/
def Keeps (e : String) (st1 st2 : Store) : Prop :=
  ∀ row, st1.selectPayment e = some row → st2.selectPayment e = some row

/-- One if the call responded on the `created` branch, else zero. -/
def Call.createdNat (c : Call) : Nat :=
  if c.path? = some Path.created then 1 else 0

/-- Statements the call at position `i` may still issue (zero when there is no such call). -/
def remainingAt (calls : List Call) (i : Nat) : Nat :=
  match calls[i]? with
  | some c => c.pc.remaining
  | none => 0

/-! ## Basic facts about the store and the writer -/

theorem selectPayment_eq_none_iff (s : Store) (e : String) :
    s.selectPayment e = none ↔ s.payments.any (fun r => r.ExternalId == e) = false := by
  simp [Store.selectPayment, List.find?_eq_none, List.any_eq_false]

theorem selectPayment_some_externalId {s : Store} {e : String} {r : Payment}
    (h : s.selectPayment e = some r) : r.ExternalId = e := by
  have := List.find?_some h
  simpa using this

theorem selectPayment_some_mem {s : Store} {e : String} {r : Payment}
    (h : s.selectPayment e = some r) : r ∈ s.payments :=
  List.mem_of_find?_eq_some h

theorem rowsFor_eq_zero_iff (s : Store) (e : String) :
    s.rowsFor e = 0 ↔ s.selectPayment e = none := by
  simp [Store.rowsFor, Store.selectPayment, List.find?_eq_none, List.count_eq_zero]

@[simp] theorem Ctx_new_JSON_200 (b : Body) : Ctx.new.JSON 200 b = ⟨200, true, [b]⟩ := by
  simp [Ctx.JSON, Ctx.Status, Ctx.new]

@[simp] theorem Ctx_new_JSON_500 (b : Body) : Ctx.new.JSON 500 b = ⟨500, true, [b]⟩ := by
  simp [Ctx.JSON, Ctx.Status, Ctx.new]

@[simp] theorem Ctx_abort_JSON_400 (b : Body) :
    (Ctx.new.AbortWithStatus 400).JSON 400 b = ⟨400, true, [b]⟩ := by
  simp [Ctx.JSON, Ctx.AbortWithStatus, Ctx.Status, Ctx.new]

/-- The handler on a body that binds to `p`: the three store calls decide everything. -/
theorem createPayment_bound (s : Store) (f : PaymentFaults) (body : ReqBody PaymentFields)
    (p : Payment) (hb : decodePayment body = (p, false)) :
    createPayment s f body =
      match execInsertPayment s f.ins p.ExternalId p.Amount "SUCCESS" with
      | (.error err, s1) =>
        match queryRowPayment s1 f.sel2 p.ExternalId with
        | .ok existing =>
          ⟨⟨200, true, [.payment existing]⟩, s1,
            [.selectPayment p.ExternalId, .insertPayment p.ExternalId p.Amount "SUCCESS",
              .selectPayment p.ExternalId]⟩
        | .error _ =>
          ⟨⟨500, true, [.errorH err]⟩, s1,
            [.selectPayment p.ExternalId, .insertPayment p.ExternalId p.Amount "SUCCESS",
              .selectPayment p.ExternalId]⟩
      | (.ok id, s1) =>
        ⟨⟨200, true, [.payment ⟨id, p.ExternalId, p.Amount, "SUCCESS"⟩]⟩, s1,
          [.selectPayment p.ExternalId, .insertPayment p.ExternalId p.Amount "SUCCESS"]⟩ := by
  simp only [createPayment, bindPayment, hb]
  simp only [Bool.false_eq_true, if_false]
  split
  · split <;> simp
  · simp

/-- The handler on a body that does not bind. -/
theorem createPayment_unbound (s : Store) (f : PaymentFaults) (body : ReqBody PaymentFields)
    (hb : (decodePayment body).2 = true) :
    createPayment s f body = ⟨⟨400, true, [.errorH "invalid request."]⟩, s, []⟩ := by
  simp [createPayment, bindPayment, hb]

/-- The store after a call that takes the created path. -/
theorem createPayment_created_store (s : Store) (f : PaymentFaults)
    (body : ReqBody PaymentFields) (p : Payment) (hb : decodePayment body = (p, false))
    (hrow : s.selectPayment p.ExternalId = none) (hins : f.ins = none) :
    (createPayment s f body).store =
      { s with
        payments := s.payments ++ [⟨s.nextPaymentId, p.ExternalId, p.Amount, "SUCCESS"⟩]
        nextPaymentId := s.nextPaymentId + 1 } := by
  have hany := (selectPayment_eq_none_iff s p.ExternalId).1 hrow
  rw [createPayment_bound s f body p hb]
  simp [execInsertPayment, hins, Store.insertPayment, hany]

/-- The store after a call whose INSERT met an injected error. -/
theorem createPayment_insert_error_store (s : Store) (f : PaymentFaults)
    (body : ReqBody PaymentFields) (p : Payment) (msg : String)
    (hb : decodePayment body = (p, false)) (hins : f.ins = some msg) :
    (createPayment s f body).store = s := by
  rw [createPayment_bound s f body p hb]
  simp only [execInsertPayment, hins]
  cases queryRowPayment s f.sel2 p.ExternalId <;> simp

/-! ## The created path -/

/-- C4: on a store with no row for the external id of a request body that binds to `p`
(whatever `id` and `status` the body carries), when the INSERT is executed the store gains
exactly the row (generated id, external id, amount, "SUCCESS"), nothing else changes, and the
response is 200 with exactly that Payment. -/
theorem createPayment_created (s : Store) (f : PaymentFaults) (body : ReqBody PaymentFields)
    (p : Payment) (hb : decodePayment body = (p, false))
    (hrow : s.selectPayment p.ExternalId = none) (hins : f.ins = none) :
    (createPayment s f body).store =
      { s with
        payments := s.payments ++ [⟨s.nextPaymentId, p.ExternalId, p.Amount, "SUCCESS"⟩]
        nextPaymentId := s.nextPaymentId + 1 } ∧
    (createPayment s f body).ctx =
      ⟨200, true, [.payment ⟨s.nextPaymentId, p.ExternalId, p.Amount, "SUCCESS"⟩]⟩ := by
  have hany := (selectPayment_eq_none_iff s p.ExternalId).1 hrow
  rw [createPayment_bound s f body p hb]
  simp [execInsertPayment, hins, Store.insertPayment, hany]

theorem createPayment_created_witness :
    (createPayment ⟨[], [⟨4, "old", 10, "SUCCESS"⟩], 1, 5⟩ PaymentFaults.none
        (.object ⟨.value 99, .value "abc", .value 1000, .value "PENDING"⟩)).store =
      ⟨[], [⟨4, "old", 10, "SUCCESS"⟩, ⟨5, "abc", 1000, "SUCCESS"⟩], 1, 6⟩ ∧
    (createPayment ⟨[], [⟨4, "old", 10, "SUCCESS"⟩], 1, 5⟩ PaymentFaults.none
        (.object ⟨.value 99, .value "abc", .value 1000, .value "PENDING"⟩)).ctx =
      ⟨200, true, [.payment ⟨5, "abc", 1000, "SUCCESS"⟩]⟩ :=
  createPayment_created ⟨[], [⟨4, "old", 10, "SUCCESS"⟩], 1, 5⟩ PaymentFaults.none
    (.object ⟨.value 99, .value "abc", .value 1000, .value "PENDING"⟩)
    ⟨99, "abc", 1000, "PENDING"⟩ (by decide) (by decide) rfl

/-! ## A failed INSERT -/

/-- C5 (as amended): when the INSERT fails for a reason other than the uniqueness constraint,
the store is unchanged and the handler answers from its re-read: 200 with the row when the
re-read returns one, 500 with the INSERT error when it returns none. -/
theorem createPayment_insert_error (s : Store) (f : PaymentFaults)
    (body : ReqBody PaymentFields) (p : Payment) (msg : String)
    (hb : decodePayment body = (p, false)) (hins : f.ins = some msg) :
    (createPayment s f body).store = s ∧
    (createPayment s f body).ctx =
      (match queryRowPayment s f.sel2 p.ExternalId with
       | .ok row => ⟨200, true, [.payment row]⟩
       | .error _ => ⟨500, true, [.errorH msg]⟩) := by
  rw [createPayment_bound s f body p hb]
  simp only [execInsertPayment, hins]
  cases queryRowPayment s f.sel2 p.ExternalId <;> simp

theorem createPayment_insert_error_witness :
    (createPayment ⟨[], [], 1, 1⟩ ⟨none, some "driver: bad connection", none⟩
        (.object ⟨.absent, .value "abc", .value 5, .absent⟩)).store = ⟨[], [], 1, 1⟩ ∧
    (createPayment ⟨[], [], 1, 1⟩ ⟨none, some "driver: bad connection", none⟩
        (.object ⟨.absent, .value "abc", .value 5, .absent⟩)).ctx =
      ⟨500, true, [.errorH "driver: bad connection"]⟩ :=
  createPayment_insert_error ⟨[], [], 1, 1⟩ ⟨none, some "driver: bad connection", none⟩
    (.object ⟨.absent, .value "abc", .value 5, .absent⟩) ⟨0, "abc", 5, ""⟩
    "driver: bad connection" (by decide) rfl

/-- C5 (counterexample): the table holds a row for "abc", the INSERT of a request for "abc"
fails with a connection error, and the handler responds 200 with the stored Payment, not
500. -/
theorem createPayment_insert_error_counterexample :
    (createPayment ⟨[], [⟨1, "abc", 1000, "SUCCESS"⟩], 1, 2⟩
        ⟨none, some "driver: bad connection", none⟩
        (.object ⟨.absent, .value "abc", .value 5, .absent⟩)).ctx =
      ⟨200, true, [.payment ⟨1, "abc", 1000, "SUCCESS"⟩]⟩ ∧
    ¬ ((createPayment ⟨[], [⟨1, "abc", 1000, "SUCCESS"⟩], 1, 2⟩
        ⟨none, some "driver: bad connection", none⟩
        (.object ⟨.absent, .value "abc", .value 5, .absent⟩)).ctx.status = 500 ∧
       ∀ q, Body.payment q ∉ (createPayment ⟨[], [⟨1, "abc", 1000, "SUCCESS"⟩], 1, 2⟩
        ⟨none, some "driver: bad connection", none⟩
        (.object ⟨.absent, .value "abc", .value 5, .absent⟩)).ctx.body) := by
  constructor
  · decide
  · intro h
    exact absurd h.1 (by decide)

/-! ## Request validation -/

/-- Binding fails exactly on a body that is no JSON object for the struct, or that holds a
value of the wrong type (or an integer outside int64) for one of the four fields. -/
theorem decodePayment_fails_iff (body : ReqBody PaymentFields) :
    (decodePayment body).2 = true ↔
      body = .malformed ∨
      ∃ b, body = .object b ∧
        ((decodeInt b.id).2 = true ∨ b.external_id = .mismatch ∨
          (decodeInt b.amount).2 = true ∨ b.status = .mismatch) := by
  cases body with
  | malformed => simp [decodePayment]
  | object b =>
    obtain ⟨i, e, a, st⟩ := b
    cases e <;> cases st <;> simp [decodePayment, decodeString]

/-- C6 (as amended): the handler responds 400 exactly when `BindJSON` cannot decode the body,
and then it sends no statement and the store is unchanged; a body that decodes, also one
without `external_id` or `amount` (the field is then the zero value), gets its INSERT. -/
theorem createPayment_invalid_request (s : Store) (f : PaymentFaults)
    (body : ReqBody PaymentFields) :
    ((createPayment s f body).ctx.status = 400 ↔ (decodePayment body).2 = true) ∧
    ((decodePayment body).2 = true →
      createPayment s f body = ⟨⟨400, true, [.errorH "invalid request."]⟩, s, []⟩) ∧
    ((decodePayment body).2 = false →
      Stmt.insertPayment (decodePayment body).1.ExternalId (decodePayment body).1.Amount
        "SUCCESS" ∈ (createPayment s f body).log) ∧
    (∀ i st, (decodeInt i).2 = false → st ≠ Field.mismatch →
      (decodePayment (.object ⟨i, .absent, .absent, st⟩)).2 = false ∧
      (decodePayment (.object ⟨i, .absent, .absent, st⟩)).1.ExternalId = "" ∧
      (decodePayment (.object ⟨i, .absent, .absent, st⟩)).1.Amount = 0) := by
  refine ⟨?_, ?_, ?_, ?_⟩
  · constructor
    · intro h
      by_contra hn
      have hb : decodePayment body = ((decodePayment body).1, false) := by
        rw [Bool.not_eq_true] at hn
        exact Prod.ext rfl hn
      rw [createPayment_bound s f body _ hb] at h
      revert h
      split
      · split <;> simp
      · simp
    · intro h
      rw [createPayment_unbound s f body h]
  · intro h
    exact createPayment_unbound s f body h
  · intro hn
    have hb : decodePayment body = ((decodePayment body).1, false) := Prod.ext rfl hn
    rw [createPayment_bound s f body _ hb]
    split
    · split <;> simp
    · simp
  · intro i st hi hst
    cases st <;> simp_all [decodePayment, decodeString, decodeInt]

/-- C6 (counterexample): a body with an amount and no `external_id` is not rejected; the
handler responds 200 and inserts a row whose external id is the empty string. -/
theorem createPayment_invalid_request_counterexample :
    createPayment ⟨[], [], 1, 1⟩ PaymentFaults.none
        (.object ⟨.absent, .absent, .value 5, .absent⟩) =
      ⟨⟨200, true, [.payment ⟨1, "", 5, "SUCCESS"⟩]⟩, ⟨[], [⟨1, "", 5, "SUCCESS"⟩], 1, 2⟩,
        [.selectPayment "", .insertPayment "" 5 "SUCCESS"]⟩ := by
  decide

theorem createPayment_invalid_request_witness :
    createPayment ⟨[], [⟨1, "abc", 1000, "SUCCESS"⟩], 1, 2⟩ PaymentFaults.none
        (.object ⟨.absent, .value "abc", .mismatch, .absent⟩) =
      ⟨⟨400, true, [.errorH "invalid request."]⟩, ⟨[], [⟨1, "abc", 1000, "SUCCESS"⟩], 1, 2⟩,
        []⟩ :=
  (createPayment_invalid_request ⟨[], [⟨1, "abc", 1000, "SUCCESS"⟩], 1, 2⟩ PaymentFaults.none
    (.object ⟨.absent, .value "abc", .mismatch, .absent⟩)).2.1 (by decide)

/-! ## The re-read after a failed INSERT -/

/-- C7 (as amended): when the INSERT of a request fails, the handler sends exactly one re-read
and never a second one; it responds 200 with the row when that re-read returns one, and 500
with the INSERT error when it returns none, whatever a later re-read would return. -/
theorem createPayment_single_reread (s : Store) (f : PaymentFaults)
    (body : ReqBody PaymentFields) (p : Payment) (err : String)
    (hb : decodePayment body = (p, false))
    (hins : (execInsertPayment s f.ins p.ExternalId p.Amount "SUCCESS").1 = .error err) :
    (createPayment s f body).log =
      [.selectPayment p.ExternalId, .insertPayment p.ExternalId p.Amount "SUCCESS",
        .selectPayment p.ExternalId] ∧
    (createPayment s f body).store = s ∧
    (createPayment s f body).ctx =
      (match queryRowPayment s f.sel2 p.ExternalId with
       | .ok row => ⟨200, true, [.payment row]⟩
       | .error _ => ⟨500, true, [.errorH err]⟩) := by
  have hs : (execInsertPayment s f.ins p.ExternalId p.Amount "SUCCESS") = (.error err, s) := by
    revert hins
    unfold execInsertPayment
    cases f.ins with
    | some m => simp
    | none =>
      simp only
      cases s.insertPayment p.ExternalId p.Amount "SUCCESS" with
      | error e => simp
      | ok r => simp
  rw [createPayment_bound s f body p hb, hs]
  dsimp only
  cases queryRowPayment s f.sel2 p.ExternalId <;> simp

theorem createPayment_single_reread_witness :
    (createPayment ⟨[], [⟨1, "abc", 1000, "SUCCESS"⟩], 1, 2⟩ PaymentFaults.none
        (.object ⟨.absent, .value "abc", .value 5, .absent⟩)).log =
      [.selectPayment "abc", .insertPayment "abc" 5 "SUCCESS", .selectPayment "abc"] ∧
    (createPayment ⟨[], [⟨1, "abc", 1000, "SUCCESS"⟩], 1, 2⟩ PaymentFaults.none
        (.object ⟨.absent, .value "abc", .value 5, .absent⟩)).store =
      ⟨[], [⟨1, "abc", 1000, "SUCCESS"⟩], 1, 2⟩ ∧
    (createPayment ⟨[], [⟨1, "abc", 1000, "SUCCESS"⟩], 1, 2⟩ PaymentFaults.none
        (.object ⟨.absent, .value "abc", .value 5, .absent⟩)).ctx =
      ⟨200, true, [.payment ⟨1, "abc", 1000, "SUCCESS"⟩]⟩ :=
  createPayment_single_reread ⟨[], [⟨1, "abc", 1000, "SUCCESS"⟩], 1, 2⟩ PaymentFaults.none
    (.object ⟨.absent, .value "abc", .value 5, .absent⟩) ⟨0, "abc", 5, ""⟩
    (duplicateEntry "abc") (by decide) rfl

/-- C7 (counterexample): the INSERT for "abc" fails on the uniqueness constraint, the one
re-read comes back with no row, and the handler responds 500 with the INSERT error after
three statements, although a further re-read on the store it leaves returns the row. -/
theorem createPayment_single_reread_counterexample :
    createPayment ⟨[], [⟨1, "abc", 1000, "SUCCESS"⟩], 1, 2⟩ ⟨none, none, some errNoRows⟩
        (.object ⟨.absent, .value "abc", .value 5, .absent⟩) =
      ⟨⟨500, true, [.errorH (duplicateEntry "abc")]⟩, ⟨[], [⟨1, "abc", 1000, "SUCCESS"⟩], 1, 2⟩,
        [.selectPayment "abc", .insertPayment "abc" 5 "SUCCESS", .selectPayment "abc"]⟩ ∧
    queryRowPayment
        (createPayment ⟨[], [⟨1, "abc", 1000, "SUCCESS"⟩], 1, 2⟩ ⟨none, none, some errNoRows⟩
          (.object ⟨.absent, .value "abc", .value 5, .absent⟩)).store none "abc" =
      .ok ⟨1, "abc", 1000, "SUCCESS"⟩ :=
  ⟨by decide, rfl⟩

/-! ## The initial existence check -/

/-- C10: the response and the store left by `createPayment` are those of the insert-first
handler; the result of the initial SELECT (any injected error, any store answer) changes
neither; on every body that binds the INSERT is sent, and the statements of `createPayment`
are the initial SELECT followed by those of the insert-first handler. -/
theorem createPayment_check_redundant (s : Store) (f : PaymentFaults)
    (body : ReqBody PaymentFields) :
    (createPayment s f body).ctx = (createPaymentInsertFirst s f body).ctx ∧
    (createPayment s f body).store = (createPaymentInsertFirst s f body).store ∧
    (∀ sel1, createPayment s ⟨sel1, f.ins, f.sel2⟩ body =
      createPayment s f body) ∧
    ((decodePayment body).2 = false →
      (createPayment s f body).log =
        .selectPayment (decodePayment body).1.ExternalId ::
          (createPaymentInsertFirst s f body).log ∧
      Stmt.insertPayment (decodePayment body).1.ExternalId (decodePayment body).1.Amount
        "SUCCESS" ∈ (createPayment s f body).log) := by
  refine ⟨?_, ?_, ?_, ?_⟩
  · unfold createPayment createPaymentInsertFirst
    simp only
    split
    · rfl
    · split
      · split <;> rfl
      · rfl
  · unfold createPayment createPaymentInsertFirst
    simp only
    split
    · rfl
    · split
      · split <;> rfl
      · rfl
  · intro sel1
    rfl
  · intro hn
    unfold createPayment createPaymentInsertFirst
    simp only [bindPayment, hn]
    simp only [Bool.false_eq_true, if_false]
    split
    · split <;> simp
    · simp

theorem createPayment_check_redundant_witness :
    (createPayment ⟨[], [⟨1, "abc", 1000, "SUCCESS"⟩], 1, 2⟩
        ⟨some "driver: bad connection", none, none⟩
        (.object ⟨.absent, .value "abc", .value 5, .absent⟩)).ctx =
      (createPaymentInsertFirst ⟨[], [⟨1, "abc", 1000, "SUCCESS"⟩], 1, 2⟩
        ⟨some "driver: bad connection", none, none⟩
        (.object ⟨.absent, .value "abc", .value 5, .absent⟩)).ctx ∧
    Stmt.insertPayment "abc" 5 "SUCCESS" ∈
      (createPayment ⟨[], [⟨1, "abc", 1000, "SUCCESS"⟩], 1, 2⟩
        ⟨some "driver: bad connection", none, none⟩
        (.object ⟨.absent, .value "abc", .value 5, .absent⟩)).log :=
  ⟨(createPayment_check_redundant ⟨[], [⟨1, "abc", 1000, "SUCCESS"⟩], 1, 2⟩
      ⟨some "driver: bad connection", none, none⟩
      (.object ⟨.absent, .value "abc", .value 5, .absent⟩)).1,
   ((createPayment_check_redundant ⟨[], [⟨1, "abc", 1000, "SUCCESS"⟩], 1, 2⟩
      ⟨some "driver: bad connection", none, none⟩
      (.object ⟨.absent, .value "abc", .value 5, .absent⟩)).2.2.2 (by decide)).2⟩

/-! ## Idempotent response -/

/-- On a store that holds a row for the external id of the request, the INSERT fails, and the
handler responds with the row whenever its re-read is executed. -/
theorem createPayment_existing (s : Store) (f : PaymentFaults) (body : ReqBody PaymentFields)
    (p row : Payment) (hb : decodePayment body = (p, false))
    (hrow : s.selectPayment p.ExternalId = some row) (hread : f.sel2 = none) :
    createPayment s f body =
      ⟨⟨200, true, [.payment row]⟩, s,
        [.selectPayment p.ExternalId, .insertPayment p.ExternalId p.Amount "SUCCESS",
          .selectPayment p.ExternalId]⟩ := by
  have hany : s.payments.any (fun r => r.ExternalId == p.ExternalId) = true := by
    cases h : s.payments.any (fun r => r.ExternalId == p.ExternalId) with
    | true => rfl
    | false =>
      rw [← selectPayment_eq_none_iff, hrow] at h
      exact absurd h (by simp)
  rw [createPayment_bound s f body p hb]
  cases hf : f.ins with
  | some m => simp [execInsertPayment, queryRowPayment, hread, hrow]
  | none => simp [execInsertPayment, Store.insertPayment, hany, queryRowPayment, hread, hrow]

/-- A call that responds 200 responds with a Payment, and that Payment is the row the store
holds for the external id afterwards. -/
theorem createPayment_ok_row (s : Store) (f : PaymentFaults) (body : ReqBody PaymentFields)
    (p : Payment) (hb : decodePayment body = (p, false))
    (hok : (createPayment s f body).ctx.status = 200) :
    ∃ row, (createPayment s f body).ctx = ⟨200, true, [.payment row]⟩ ∧
      (createPayment s f body).store.selectPayment p.ExternalId = some row := by
  rw [createPayment_bound s f body p hb] at hok ⊢
  have hsel : ∀ (t : Store) (g : Option String) (row : Payment),
      queryRowPayment t g p.ExternalId = .ok row → t.selectPayment p.ExternalId = some row := by
    intro t g row h
    unfold queryRowPayment at h
    cases g with
    | some m => simp at h
    | none =>
      simp only at h
      cases ht : t.selectPayment p.ExternalId with
      | none => simp [ht] at h
      | some r =>
        simp [ht] at h
        simp [h]
  cases hf : f.ins with
  | some m =>
    simp only [execInsertPayment, hf] at hok ⊢
    cases hq : queryRowPayment s f.sel2 p.ExternalId with
    | error e => simp [hq] at hok
    | ok row => exact ⟨row, by simp, hsel s _ row hq⟩
  | none =>
    cases hany : s.payments.any (fun r => r.ExternalId == p.ExternalId) with
    | true =>
      simp only [execInsertPayment, hf, Store.insertPayment, hany, if_true] at hok ⊢
      cases hq : queryRowPayment s f.sel2 p.ExternalId with
      | error e => simp [hq] at hok
      | ok row => exact ⟨row, by simp, hsel s _ row hq⟩
    | false =>
      have hnone := (selectPayment_eq_none_iff s p.ExternalId).2 hany
      refine ⟨⟨s.nextPaymentId, p.ExternalId, p.Amount, "SUCCESS"⟩, ?_, ?_⟩
      · simp [execInsertPayment, hf, Store.insertPayment, hany]
      · simp only [Store.selectPayment] at hnone
        simp [execInsertPayment, hf, Store.insertPayment, hany, Store.selectPayment,
          List.find?_append, hnone]

/-- C2: when a call for an external id has responded 200, a following call for the same
external id, with the same or another amount, responds 200 with the very Payment the first
call returned (same id, external id, amount and status) and leaves the store as the first
call left it, provided the store executes the re-read of the second call. -/
theorem createPayment_idempotent (s : Store) (f1 f2 : PaymentFaults)
    (body1 body2 : ReqBody PaymentFields) (p1 p2 : Payment)
    (hb1 : decodePayment body1 = (p1, false)) (hb2 : decodePayment body2 = (p2, false))
    (he : p2.ExternalId = p1.ExternalId)
    (hok : (createPayment s f1 body1).ctx.status = 200) (hread : f2.sel2 = none) :
    ∃ row, row.ExternalId = p1.ExternalId ∧
      (createPayment s f1 body1).ctx = ⟨200, true, [.payment row]⟩ ∧
      (createPayment (createPayment s f1 body1).store f2 body2).ctx =
        ⟨200, true, [.payment row]⟩ ∧
      (createPayment (createPayment s f1 body1).store f2 body2).store =
        (createPayment s f1 body1).store := by
  obtain ⟨row, hctx, hrow⟩ := createPayment_ok_row s f1 body1 p1 hb1 hok
  refine ⟨row, selectPayment_some_externalId hrow, hctx, ?_, ?_⟩
  · rw [createPayment_existing _ f2 body2 p2 row hb2 (by rw [he]; exact hrow) hread]
  · rw [createPayment_existing _ f2 body2 p2 row hb2 (by rw [he]; exact hrow) hread]

theorem createPayment_idempotent_witness :
    ∃ row : Payment, row.ExternalId = "abc" ∧
      (createPayment ⟨[], [], 1, 1⟩ PaymentFaults.none
        (.object ⟨.absent, .value "abc", .value 1000, .absent⟩)).ctx =
          ⟨200, true, [.payment row]⟩ ∧
      (createPayment (createPayment ⟨[], [], 1, 1⟩ PaymentFaults.none
          (.object ⟨.absent, .value "abc", .value 1000, .absent⟩)).store PaymentFaults.none
        (.object ⟨.absent, .value "abc", .value 77, .absent⟩)).ctx =
          ⟨200, true, [.payment row]⟩ ∧
      (createPayment (createPayment ⟨[], [], 1, 1⟩ PaymentFaults.none
          (.object ⟨.absent, .value "abc", .value 1000, .absent⟩)).store PaymentFaults.none
        (.object ⟨.absent, .value "abc", .value 77, .absent⟩)).store =
        (createPayment ⟨[], [], 1, 1⟩ PaymentFaults.none
          (.object ⟨.absent, .value "abc", .value 1000, .absent⟩)).store :=
  createPayment_idempotent ⟨[], [], 1, 1⟩ PaymentFaults.none PaymentFaults.none
    (.object ⟨.absent, .value "abc", .value 1000, .absent⟩)
    (.object ⟨.absent, .value "abc", .value 77, .absent⟩)
    ⟨0, "abc", 1000, ""⟩ ⟨0, "abc", 77, ""⟩ (by decide) (by decide) rfl (by decide) rfl

/-! ## The user handlers -/

theorem foldl_append_some {α : Type} (l rows : List α) :
    rows.foldl (fun acc u => Slice.append acc u) (some l) = some (l ++ rows) := by
  induction rows generalizing l with
  | nil => simp
  | cons r rs ih =>
    rw [List.foldl_cons]
    show List.foldl (fun acc u => Slice.append acc u) (some (l ++ [r])) rs = _
    rw [ih]
    simp

/-- The slice `getUsers` builds: nil when the query yields no row, otherwise the rows in the
order the store yields them. -/
theorem foldl_append_nil {α : Type} (rows : List α) :
    rows.foldl (fun acc u => Slice.append acc u) (none : Slice α) =
      match rows with
      | [] => none
      | r :: rs => some (r :: rs) := by
  cases rows with
  | nil => rfl
  | cons r rs =>
    rw [List.foldl_cons]
    show List.foldl (fun acc u => Slice.append acc u) (some [r]) rs = _
    rw [foldl_append_some]
    simp

/-- The response of `getUsers`: 500 with the error string when the SELECT fails, otherwise 200
with the slice of the rows, which is nil for a table without rows. -/
theorem getUsers_eq (s : Store) (fault : Option String) :
    getUsers s fault =
      match fault with
      | some err => ⟨⟨500, true, [.text err]⟩, s, [.selectUsers]⟩
      | none =>
        ⟨⟨200, true, [.users (if s.users = [] then none else some s.users)]⟩, s,
          [.selectUsers]⟩ := by
  cases fault with
  | some err => simp [getUsers, queryUsers]
  | none =>
    simp only [getUsers, queryUsers, Store.selectUsers, foldl_append_nil]
    cases s.users <;> simp

/-- C8 (the code at the failing input): on a store without users `getUsers` responds 200 and
the JSON it writes is `null`, which is not the empty array. -/
theorem getUsers_no_rows (ps : List Payment) (n m : Int) :
    (getUsers ⟨[], ps, n, m⟩ none).ctx = ⟨200, true, [.users none]⟩ ∧
    (getUsers ⟨[], ps, n, m⟩ none).ctx.body.map Body.toJson = [Json.null] ∧
    (getUsers ⟨[], ps, n, m⟩ none).ctx.body.map Body.toJson ≠ [Json.arr []] := by
  rw [getUsers_eq]
  simp [Body.toJson]

/-- C9: for a body carrying `name` and `email`, when the INSERT is executed `createUser` adds
exactly the row (generated id, name, email), changes nothing else, and responds 200 with that
user; a `getUsers` call made afterwards responds 200 with the array of the earlier rows
followed by exactly that element (which occurs once when the generated id is fresh); when the
INSERT fails `createUser` responds 500 with the error string and the store is unchanged. -/
theorem createUser_roundtrip (s : Store) (name email : String) (i : Field Int)
    (hi : (decodeInt i).2 = false) :
    (createUser s none (.object ⟨i, .value name, .value email⟩)).store =
      { s with
        users := s.users ++ [⟨s.nextUserId, name, email⟩]
        nextUserId := s.nextUserId + 1 } ∧
    (createUser s none (.object ⟨i, .value name, .value email⟩)).ctx =
      ⟨200, true, [.user ⟨s.nextUserId, name, email⟩]⟩ ∧
    (getUsers (createUser s none (.object ⟨i, .value name, .value email⟩)).store none).ctx =
      ⟨200, true, [.users (some (s.users ++ [⟨s.nextUserId, name, email⟩]))]⟩ ∧
    Body.toJson (.users (some (s.users ++ [⟨s.nextUserId, name, email⟩]))) =
      .arr (s.users.map User.toJson ++
        [.obj [("id", .num s.nextUserId), ("name", .str name), ("email", .str email)]]) ∧
    ((∀ r ∈ s.users, r.ID ≠ s.nextUserId) →
      (s.users ++ [(⟨s.nextUserId, name, email⟩ : User)]).count ⟨s.nextUserId, name, email⟩
        = 1) ∧
    (∀ msg, (createUser s (some msg) (.object ⟨i, .value name, .value email⟩)).ctx =
        ⟨500, true, [.text msg]⟩ ∧
      (createUser s (some msg) (.object ⟨i, .value name, .value email⟩)).store = s) := by
  have hd : decodeUser (.object ⟨i, .value name, .value email⟩) =
      (⟨(decodeInt i).1, name, email⟩, false) := by
    simp [decodeUser, decodeString, hi]
  refine ⟨?_, ?_, ?_, ?_, ?_, ?_⟩
  · simp [createUser, bindUser, hd, execInsertUser, Store.insertUser]
  · simp [createUser, bindUser, hd, execInsertUser, Store.insertUser]
  · rw [getUsers_eq]
    simp [createUser, bindUser, hd, execInsertUser, Store.insertUser]
  · simp [Body.toJson, User.toJson]
  · intro hfresh
    have h0 : s.users.count (⟨s.nextUserId, name, email⟩ : User) = 0 := by
      rw [List.count_eq_zero]
      intro hmem
      exact hfresh _ hmem rfl
    simp [List.count_append, h0]
  · intro msg
    simp [createUser, bindUser, hd, execInsertUser]

theorem createUser_roundtrip_witness :
    (createUser ⟨[], [], 1, 1⟩ none (.object ⟨.absent, .value "Ana", .value "a@x.com"⟩)).ctx =
      ⟨200, true, [.user ⟨1, "Ana", "a@x.com"⟩]⟩ ∧
    (getUsers (createUser ⟨[], [], 1, 1⟩ none
        (.object ⟨.absent, .value "Ana", .value "a@x.com"⟩)).store none).ctx =
      ⟨200, true, [.users (some [⟨1, "Ana", "a@x.com"⟩])]⟩ :=
  ⟨(createUser_roundtrip ⟨[], [], 1, 1⟩ "Ana" "a@x.com" .absent rfl).2.1,
   (createUser_roundtrip ⟨[], [], 1, 1⟩ "Ana" "a@x.com" .absent rfl).2.2.1⟩

/-! ## The uniqueness invariant over sequences of calls -/

/-- The external ids present in the `payments` table. -/
theorem mem_ids_iff (s : Store) (e : String) :
    e ∈ s.payments.map Payment.ExternalId ↔ s.selectPayment e ≠ none := by
  rw [Ne, selectPayment_eq_none_iff]
  simp [List.any_eq_false]

/-- A call leaves the store as it was, or adds one row for an external id that had none. -/
theorem createPayment_store_cases (s : Store) (f : PaymentFaults)
    (body : ReqBody PaymentFields) :
    (createPayment s f body).store = s ∨
    ∃ p, decodePayment body = (p, false) ∧ s.selectPayment p.ExternalId = none ∧
      (createPayment s f body).store =
        { s with
          payments := s.payments ++ [⟨s.nextPaymentId, p.ExternalId, p.Amount, "SUCCESS"⟩]
          nextPaymentId := s.nextPaymentId + 1 } := by
  cases hd : (decodePayment body).2 with
  | true => left; rw [createPayment_unbound s f body hd]
  | false =>
    have hb : decodePayment body = ((decodePayment body).1, false) := Prod.ext rfl hd
    cases hf : f.ins with
    | some m =>
      left
      exact (createPayment_insert_error_store s f body _ m hb hf)
    | none =>
      cases hsel : s.selectPayment (decodePayment body).1.ExternalId with
      | none =>
        right
        exact ⟨_, hb, hsel, (createPayment_created_store s f body _ hb hsel hf)⟩
      | some row =>
        left
        have hany : s.payments.any
            (fun r => r.ExternalId == (decodePayment body).1.ExternalId) = true := by
          cases h : s.payments.any
              (fun r => r.ExternalId == (decodePayment body).1.ExternalId) with
          | true => rfl
          | false =>
            rw [← selectPayment_eq_none_iff, hsel] at h
            exact absurd h (by simp)
        rw [createPayment_bound s f body _ hb]
        simp only [execInsertPayment, hf, Store.insertPayment, hany, if_true]
        cases queryRowPayment s f.sel2 (decodePayment body).1.ExternalId <;> simp

/-- A call keeps the uniqueness invariant. -/
theorem createPayment_unique (s : Store) (f : PaymentFaults) (body : ReqBody PaymentFields)
    (hu : s.Unique) : (createPayment s f body).store.Unique := by
  rcases createPayment_store_cases s f body with h | ⟨p, _, hsel, h⟩
  · rw [h]; exact hu
  · rw [h]
    have hnot : p.ExternalId ∉ s.payments.map Payment.ExternalId := by
      rw [mem_ids_iff]; simp [hsel]
    unfold Store.Unique at hu ⊢
    simp only [List.map_append, List.map_cons, List.map_nil]
    rw [List.nodup_append]
    refine ⟨hu, List.nodup_singleton _, ?_⟩
    intro x hx hx1
    rw [List.mem_singleton] at hx1
    exact hnot (hx1 ▸ hx)

/-- A call removes no external id from the table. -/
theorem createPayment_ids_mono (s : Store) (f : PaymentFaults) (body : ReqBody PaymentFields)
    (e : String) (he : e ∈ s.payments.map Payment.ExternalId) :
    e ∈ (createPayment s f body).store.payments.map Payment.ExternalId := by
  rcases createPayment_store_cases s f body with h | ⟨p, _, _, h⟩
  · rw [h]; exact he
  · rw [h]
    simp only [List.map_append, List.mem_append]
    exact Or.inl he

/-- After a call whose body binds and whose INSERT is executed, the table holds a row for
the external id of the request. -/
theorem createPayment_ids_after (s : Store) (f : PaymentFaults) (body : ReqBody PaymentFields)
    (p : Payment) (hb : decodePayment body = (p, false)) (hf : f.ins = none) :
    p.ExternalId ∈ (createPayment s f body).store.payments.map Payment.ExternalId := by
  cases hsel : s.selectPayment p.ExternalId with
  | none =>
    rw [createPayment_created_store s f body p hb hsel hf]
    simp
  | some row =>
    apply createPayment_ids_mono
    rw [mem_ids_iff, hsel]
    simp

theorem runPayments_unique_aux (reqs : List (PaymentFaults × ReqBody PaymentFields)) :
    ∀ s : Store, s.Unique → (runPayments s reqs).Unique := by
  induction reqs with
  | nil => intro s hu; exact hu
  | cons r rest ih =>
    intro s hu
    obtain ⟨f, body⟩ := r
    exact ih _ (createPayment_unique s f body hu)

theorem runPayments_ids_mono (reqs : List (PaymentFaults × ReqBody PaymentFields)) :
    ∀ (s : Store) (e : String), e ∈ s.payments.map Payment.ExternalId →
      e ∈ (runPayments s reqs).payments.map Payment.ExternalId := by
  induction reqs with
  | nil => intro s e he; exact he
  | cons r rest ih =>
    intro s e he
    obtain ⟨f, body⟩ := r
    exact ih _ e (createPayment_ids_mono s f body e he)

theorem runPayments_ids_after (reqs : List (PaymentFaults × ReqBody PaymentFields)) :
    ∀ (s : Store) (f : PaymentFaults) (body : ReqBody PaymentFields) (p : Payment),
      (f, body) ∈ reqs → decodePayment body = (p, false) → f.ins = none →
      p.ExternalId ∈ (runPayments s reqs).payments.map Payment.ExternalId := by
  induction reqs with
  | nil => intro s f body p hm; simp at hm
  | cons r rest ih =>
    intro s f body p hm hb hf
    rcases List.mem_cons.1 hm with h | h
    · subst h
      exact runPayments_ids_mono rest _ _ (createPayment_ids_after s f body p hb hf)
    · obtain ⟨f0, body0⟩ := r
      exact ih _ f body p h hb hf

/-- C1: on a store whose rows have pairwise-distinct external ids, any sequence of
`createPayment` calls executed one after another leaves a store whose rows again have
pairwise-distinct external ids, holding exactly one row for the external id of every request
whose INSERT was executed (so that it could fail only on the uniqueness constraint); requests
for "ext-1" and "ext-2" on an empty store leave two rows, with distinct ids. -/
theorem runPayments_unique (s : Store) (hu : s.Unique)
    (reqs : List (PaymentFaults × ReqBody PaymentFields)) :
    (runPayments s reqs).Unique ∧
    (∀ f body p, (f, body) ∈ reqs → decodePayment body = (p, false) → f.ins = none →
      (runPayments s reqs).rowsFor p.ExternalId = 1) ∧
    (∀ a1 a2 n m : Int, fitsInt a1 = true → fitsInt a2 = true →
      (runPayments ⟨[], [], m, n⟩
        [(PaymentFaults.none, .object ⟨.absent, .value "ext-1", .value a1, .absent⟩),
         (PaymentFaults.none, .object ⟨.absent, .value "ext-2", .value a2, .absent⟩)]).payments =
        [⟨n, "ext-1", a1, "SUCCESS"⟩, ⟨n + 1, "ext-2", a2, "SUCCESS"⟩] ∧ n ≠ n + 1) := by
  refine ⟨runPayments_unique_aux reqs s hu, ?_, ?_⟩
  · intro f body p hm hb hf
    exact List.count_eq_one_of_mem (runPayments_unique_aux reqs s hu)
      (runPayments_ids_after reqs s f body p hm hb hf)
  · intro a1 a2 n m h1 h2
    refine ⟨?_, by omega⟩
    have hb1 : decodePayment (.object ⟨.absent, .value "ext-1", .value a1, .absent⟩) =
        (⟨0, "ext-1", a1, ""⟩, false) := by
      simp [decodePayment, decodeInt, decodeString, h1]
    have hb2 : decodePayment (.object ⟨.absent, .value "ext-2", .value a2, .absent⟩) =
        (⟨0, "ext-2", a2, ""⟩, false) := by
      simp [decodePayment, decodeInt, decodeString, h2]
    simp only [runPayments]
    rw [createPayment_created_store _ _ _ _ hb1 (by simp [Store.selectPayment]) rfl]
    rw [createPayment_created_store _ _ _ _ hb2 (by simp [Store.selectPayment]) rfl]
    simp

theorem runPayments_unique_witness :
    (runPayments ⟨[], [⟨1, "abc", 1000, "SUCCESS"⟩], 1, 2⟩
      [(PaymentFaults.none, .object ⟨.absent, .value "abc", .value 5, .absent⟩),
       (PaymentFaults.none, .object ⟨.absent, .value "xyz", .value 7, .absent⟩),
       (PaymentFaults.none, .object ⟨.absent, .value "xyz", .value 9, .absent⟩)]).rowsFor "xyz"
      = 1 ∧
    ((runPayments ⟨[], [], 1, 1⟩
        [(PaymentFaults.none, .object ⟨.absent, .value "ext-1", .value 500, .absent⟩),
         (PaymentFaults.none, .object ⟨.absent, .value "ext-2", .value 700, .absent⟩)]).payments =
        [⟨1, "ext-1", 500, "SUCCESS"⟩, ⟨1 + 1, "ext-2", 700, "SUCCESS"⟩] ∧ (1 : Int) ≠ 1 + 1) :=
  ⟨(runPayments_unique ⟨[], [⟨1, "abc", 1000, "SUCCESS"⟩], 1, 2⟩ (by decide)
    [(PaymentFaults.none, .object ⟨.absent, .value "abc", .value 5, .absent⟩),
     (PaymentFaults.none, .object ⟨.absent, .value "xyz", .value 7, .absent⟩),
     (PaymentFaults.none, .object ⟨.absent, .value "xyz", .value 9, .absent⟩)]).2.1
    PaymentFaults.none (.object ⟨.absent, .value "xyz", .value 9, .absent⟩)
    ⟨0, "xyz", 9, ""⟩ (by simp) (by decide) rfl,
   (runPayments_unique ⟨[], [], 1, 1⟩ (by decide) []).2.2 500 700 1 1 (by decide) (by decide)⟩

/-! ## Concurrent calls for one external id -/

theorem Good.mono {e : String} {st st2 : Store} {c : Call} (hg : Good e st c)
    (hk : Keeps e st st2) : Good e st2 c := by
  obtain ⟨h1, h2, h3, h4⟩ := hg
  refine ⟨h1, h2, h3, ?_⟩
  cases hpc : c.pc with
  | start => trivial
  | checked => trivial
  | conflict err =>
    rw [hpc] at h4
    simp only [PcGood] at h4 ⊢
    cases hs : st.selectPayment e with
    | none => exact absurd hs h4
    | some row => rw [hk row hs]; simp
  | done r q =>
    rw [hpc] at h4
    obtain ⟨row, hr, hrest⟩ := h4
    exact ⟨row, hk row hr, hrest⟩

theorem Keeps.refl (e : String) (st : Store) : Keeps e st st := fun _ h => h

theorem Keeps.trans {e : String} {a b c : Store} (h1 : Keeps e a b) (h2 : Keeps e b c) :
    Keeps e a c := fun row h => h2 row (h1 row h)

theorem rowsFor_le_one {s : Store} (hu : s.Unique) (e : String) : s.rowsFor e ≤ 1 :=
  List.nodup_iff_count_le_one.1 hu e

theorem rowsFor_eq_one {s : Store} (hu : s.Unique) {e : String} {row : Payment}
    (h : s.selectPayment e = some row) : s.rowsFor e = 1 := by
  apply List.count_eq_one_of_mem hu
  rw [mem_ids_iff, h]
  simp

/-- One statement of one call keeps the invariant of that call, the rows other calls rely
on, the uniqueness of external ids, and the balance between `created` responses and rows. -/
theorem stepCall_spec (e : String) (c : Call) (st : Store) (hg : Good e st c)
    (hu : st.Unique) :
    Good e (stepCall c st).2 (stepCall c st).1 ∧ Keeps e st (stepCall c st).2 ∧
    (stepCall c st).2.Unique ∧
    (stepCall c st).1.createdNat + st.rowsFor e =
      c.createdNat + (stepCall c st).2.rowsFor e := by
  obtain ⟨p, f, ctx, pc⟩ := c
  obtain ⟨h1, h2, h3, h4⟩ := hg
  simp only at h1 h2 h3 h4
  subst h1 h2 h3
  cases pc with
  | start =>
    refine ⟨⟨rfl, rfl, rfl, trivial⟩, Keeps.refl _ _, hu, ?_⟩
    simp [stepCall, Call.createdNat, Call.path?]
  | checked =>
    cases hany : st.payments.any (fun r => r.ExternalId == p.ExternalId) with
    | true =>
      have hstep : stepCall ⟨p, PaymentFaults.none, Ctx.new, .checked⟩ st =
          (⟨p, PaymentFaults.none, Ctx.new, .conflict (duplicateEntry p.ExternalId)⟩, st) := by
        simp [stepCall, execInsertPayment, PaymentFaults.none, Store.insertPayment, hany]
      rw [hstep]
      refine ⟨⟨rfl, rfl, rfl, ?_⟩, Keeps.refl _ _, hu, ?_⟩
      · simp only [PcGood]
        intro hnone
        rw [selectPayment_eq_none_iff, hany] at hnone
        exact absurd hnone (by simp)
      · simp [Call.createdNat, Call.path?]
    | false =>
      have hnone := (selectPayment_eq_none_iff st p.ExternalId).2 hany
      have hstep : stepCall ⟨p, PaymentFaults.none, Ctx.new, .checked⟩ st =
          (⟨p, PaymentFaults.none, Ctx.new,
              .done ⟨200, true, [.payment ⟨st.nextPaymentId, p.ExternalId, p.Amount, "SUCCESS"⟩]⟩
                .created⟩,
            { st with
              payments :=
                st.payments ++ [⟨st.nextPaymentId, p.ExternalId, p.Amount, "SUCCESS"⟩]
              nextPaymentId := st.nextPaymentId + 1 }) := by
        simp [stepCall, execInsertPayment, PaymentFaults.none, Store.insertPayment, hany]
      rw [hstep]
      have hsel : Store.selectPayment
          { st with
            payments :=
              st.payments ++ [⟨st.nextPaymentId, p.ExternalId, p.Amount, "SUCCESS"⟩]
            nextPaymentId := st.nextPaymentId + 1 } p.ExternalId =
          some ⟨st.nextPaymentId, p.ExternalId, p.Amount, "SUCCESS"⟩ := by
        simp only [Store.selectPayment] at hnone
        simp [Store.selectPayment, List.find?_append, hnone]
      have hu2 : Store.Unique
          { st with
            payments :=
              st.payments ++ [⟨st.nextPaymentId, p.ExternalId, p.Amount, "SUCCESS"⟩]
            nextPaymentId := st.nextPaymentId + 1 } := by
        have hnot : p.ExternalId ∉ st.payments.map Payment.ExternalId := by
          rw [mem_ids_iff]; simp [hnone]
        unfold Store.Unique at hu ⊢
        simp only [List.map_append, List.map_cons, List.map_nil]
        rw [List.nodup_append]
        refine ⟨hu, List.nodup_singleton _, ?_⟩
        intro x hx hx1
        rw [List.mem_singleton] at hx1
        exact hnot (hx1 ▸ hx)
      refine ⟨⟨rfl, rfl, rfl, _, hsel, rfl, Or.inl rfl⟩, ?_, hu2, ?_⟩
      · intro row hrow
        rw [hnone] at hrow
        exact absurd hrow (by simp)
      · have h0 := (rowsFor_eq_zero_iff st p.ExternalId).2 hnone
        have h1 := rowsFor_eq_one hu2 hsel
        simp only at h1
        rw [h0, h1]
        simp [Call.createdNat, Call.path?]
  | conflict err =>
    simp only [PcGood] at h4
    cases hs : st.selectPayment p.ExternalId with
    | none => exact absurd hs h4
    | some row =>
      have hstep : stepCall ⟨p, PaymentFaults.none, Ctx.new, .conflict err⟩ st =
          (⟨p, PaymentFaults.none, Ctx.new,
              .done ⟨200, true, [.payment row]⟩ .alreadyExists⟩, st) := by
        simp [stepCall, queryRowPayment, PaymentFaults.none, hs]
      rw [hstep]
      refine ⟨⟨rfl, rfl, rfl, row, hs, rfl, Or.inr rfl⟩, Keeps.refl _ _, hu, ?_⟩
      simp [Call.createdNat, Call.path?]
  | done r q =>
    have hstep : stepCall ⟨p, PaymentFaults.none, Ctx.new, .done r q⟩ st =
        (⟨p, PaymentFaults.none, Ctx.new, .done r q⟩, st) := by
      simp [stepCall]
    rw [hstep]
    exact ⟨⟨rfl, rfl, rfl, h4⟩, Keeps.refl _ _, hu, rfl⟩

/-- One scheduling step keeps the invariant of every call. -/
theorem stepAt_spec (e : String) :
    ∀ (i : Nat) (calls : List Call) (st : Store), (∀ c ∈ calls, Good e st c) → st.Unique →
      (∀ c ∈ (stepAt i calls st).1, Good e (stepAt i calls st).2 c) ∧
      Keeps e st (stepAt i calls st).2 ∧ (stepAt i calls st).2.Unique ∧
      ((stepAt i calls st).1.map Call.createdNat).sum + st.rowsFor e =
        (calls.map Call.createdNat).sum + (stepAt i calls st).2.rowsFor e ∧
      (stepAt i calls st).1.length = calls.length := by
  intro i calls
  induction calls generalizing i with
  | nil =>
    intro st _ hu
    cases i <;> exact ⟨by simp [stepAt], Keeps.refl _ _, hu, rfl, rfl⟩
  | cons c cs ih =>
    intro st hg hu
    cases i with
    | zero =>
      obtain ⟨g1, g2, g3, g4⟩ := stepCall_spec e c st (hg c (List.mem_cons_self _ _)) hu
      simp only [stepAt]
      refine ⟨?_, g2, g3, ?_, by simp⟩
      · intro d hd
        rcases List.mem_cons.1 hd with h | h
        · rw [h]; exact g1
        · exact (hg d (List.mem_cons_of_mem _ h)).mono g2
      · simp only [List.map_cons, List.sum_cons]
        omega
    | succ j =>
      obtain ⟨g1, g2, g3, g4, g5⟩ := ih j st (fun d hd => hg d (List.mem_cons_of_mem _ hd)) hu
      simp only [stepAt]
      refine ⟨?_, g2, g3, ?_, by simp [g5]⟩
      · intro d hd
        rcases List.mem_cons.1 hd with h | h
        · rw [h]; exact (hg c (List.mem_cons_self _ _)).mono g2
        · exact g1 d h
      · simp only [List.map_cons, List.sum_cons]
        omega

/-- A whole schedule keeps the invariant; `k` is the number of rows for `e` the store held
before any `created` response. -/
theorem run_spec (e : String) (k : Nat) (sched : List Nat) :
    ∀ σ : Sys, (∀ c ∈ σ.calls, Good e σ.store c) → σ.store.Unique →
      (σ.calls.map Call.createdNat).sum + k = σ.store.rowsFor e →
      (∀ c ∈ (σ.run sched).calls, Good e (σ.run sched).store c) ∧ (σ.run sched).store.Unique ∧
      ((σ.run sched).calls.map Call.createdNat).sum + k = (σ.run sched).store.rowsFor e ∧
      (σ.run sched).calls.length = σ.calls.length := by
  induction sched with
  | nil => intro σ hg hu hk; exact ⟨hg, hu, hk, rfl⟩
  | cons i rest ih =>
    intro σ hg hu hk
    obtain ⟨g1, _, g3, g4, g5⟩ := stepAt_spec e i σ.calls σ.store hg hu
    have := ih (σ.step i) g1 g3 (by simp only [Sys.step]; omega)
    simp only [Sys.run, List.foldl_cons] at this ⊢
    refine ⟨this.1, this.2.1, this.2.2.1, ?_⟩
    rw [this.2.2.2]
    exact g5

/-- A statement of a call uses up one of the statements it may still issue. -/
theorem stepCall_remaining (c : Call) (st : Store) :
    (stepCall c st).1.pc.remaining ≤ c.pc.remaining - 1 := by
  obtain ⟨p, f, ctx, pc⟩ := c
  cases pc with
  | start => simp [stepCall, Pc.remaining]
  | checked =>
    simp only [stepCall]
    split <;> simp [Pc.remaining]
  | conflict err =>
    simp only [stepCall]
    split <;> simp [Pc.remaining]
  | done r q => simp [stepCall, Pc.remaining]

theorem stepAt_remaining :
    ∀ (j : Nat) (calls : List Call) (st : Store) (i : Nat),
      remainingAt (stepAt j calls st).1 i ≤
        remainingAt calls i - (if i = j then 1 else 0) := by
  intro j calls
  induction calls generalizing j with
  | nil => intro st i; cases j <;> simp [stepAt, remainingAt]
  | cons c cs ih =>
    intro st i
    cases j with
    | zero =>
      cases i with
      | zero =>
        simpa [stepAt, remainingAt] using stepCall_remaining c st
      | succ i => simp [stepAt, remainingAt]
    | succ j =>
      cases i with
      | zero => simp [stepAt, remainingAt]
      | succ i =>
        have := ih j st i
        simpa [stepAt, remainingAt] using this

theorem run_remaining (sched : List Nat) :
    ∀ (σ : Sys) (i : Nat),
      remainingAt (σ.run sched).calls i ≤ remainingAt σ.calls i - sched.count i := by
  induction sched with
  | nil => intro σ i; simp [Sys.run]
  | cons j rest ih =>
    intro σ i
    have h1 := ih (σ.step j) i
    have h2 := stepAt_remaining j σ.calls σ.store i
    simp only [Sys.run, List.foldl_cons] at h1 ⊢
    simp only [Sys.step] at h1 h2 ⊢
    rw [List.count_cons]
    by_cases hij : i = j
    · subst hij
      simp only [if_true] at h2
      simp only [beq_self_eq_true, if_true]
      omega
    · have hji : (j == i) = false := by
        simp only [beq_eq_false_iff_ne, ne_eq]
        exact fun h => hij h.symm
      simp only [hij, if_false] at h2
      simp only [hji]
      simp only [Bool.false_eq_true, if_false]
      omega

theorem remainingAt_le_three (calls : List Call) (i : Nat) : remainingAt calls i ≤ 3 := by
  unfold remainingAt
  cases calls[i]? with
  | none => simp
  | some c =>
    show c.pc.remaining ≤ 3
    cases c.pc <;> simp [Pc.remaining]

/-- A call started on a body that binds. -/
theorem Call.start_bound (f : PaymentFaults) (body : ReqBody PaymentFields)
    (hb : (decodePayment body).2 = false) :
    Call.start f body = ⟨(decodePayment body).1, f, Ctx.new, .start⟩ := by
  simp [Call.start, bindPayment, hb]

/-- A call that runs alone, its three steps one after another, is the handler: same
response and same store. -/
theorem run_alone (s : Store) (f : PaymentFaults) (body : ReqBody PaymentFields) :
    ((⟨s, [Call.start f body]⟩ : Sys).run [0, 0, 0]).store = (createPayment s f body).store ∧
    ((⟨s, [Call.start f body]⟩ : Sys).run [0, 0, 0]).calls.map Call.response? =
      [some (createPayment s f body).ctx] := by
  cases hd : (decodePayment body).2 with
  | true =>
    rw [createPayment_unbound s f body hd]
    simp [Sys.run, Sys.step, stepAt, stepCall, Call.start, bindPayment, hd, Call.response?]
  | false =>
    have hb : decodePayment body = ((decodePayment body).1, false) := Prod.ext rfl hd
    rw [createPayment_bound s f body _ hb, Call.start_bound f body hd]
    simp only [Sys.run, List.foldl_cons, List.foldl_nil, Sys.step, stepAt, stepCall]
    rcases h : execInsertPayment s f.ins (decodePayment body).1.ExternalId
      (decodePayment body).1.Amount "SUCCESS" with ⟨res, s1⟩
    cases res with
    | error err =>
      simp only [stepCall]
      cases h2 : queryRowPayment s1 f.sel2 (decodePayment body).1.ExternalId <;>
        simp [stepCall, Call.response?]
    | ok id => simp [stepCall, Call.response?]

theorem createdCount_eq_sum (calls : List Call) :
    calls.countP (fun c => decide (c.path? = some Path.created)) =
      (calls.map Call.createdNat).sum := by
  induction calls with
  | nil => rfl
  | cons c cs ih =>
    rw [List.countP_cons, ih, List.map_cons, List.sum_cons]
    by_cases h : c.path? = some Path.created
    · simp [Call.createdNat, h]
      omega
    · simp [Call.createdNat, h]

/-- C3: N >= 1 calls for one external id `e`, with any amounts, run on a shared store that
holds at most one row per external id and executes every statement, their store statements
interleaved by an arbitrary schedule.  A schedule that gives every call its three turns
completes all calls; and whenever all calls have responded, the store holds exactly one row
for `e`, every call has responded 200 with that row (its id, and external id `e`), every call
took the created or the already-exists branch, and the number of calls on the created branch
is one, or zero when the store held a row for `e` beforehand. -/
theorem createPayment_concurrent (s : Store) (hu : s.Unique) (e : String)
    (bodies : List (ReqBody PaymentFields)) (hN : 1 ≤ bodies.length)
    (hreq : ∀ b ∈ bodies, (decodePayment b).2 = false ∧ (decodePayment b).1.ExternalId = e)
    (sched : List Nat) :
    ((∀ i < bodies.length, 3 ≤ sched.count i) → ((Sys.init s bodies).run sched).allDone) ∧
    (((Sys.init s bodies).run sched).allDone →
      ((Sys.init s bodies).run sched).calls.length = bodies.length ∧
      ((Sys.init s bodies).run sched).store.rowsFor e = 1 ∧
      (∃ row, row.ExternalId = e ∧
        ((Sys.init s bodies).run sched).store.selectPayment e = some row ∧
        ∀ c ∈ ((Sys.init s bodies).run sched).calls,
          c.response? = some ⟨200, true, [.payment row]⟩ ∧
          (c.path? = some .created ∨ c.path? = some .alreadyExists)) ∧
      ((Sys.init s bodies).run sched).createdCount = if s.rowsFor e = 0 then 1 else 0) := by
  have hinit : ∀ c ∈ (Sys.init s bodies).calls, Good e (Sys.init s bodies).store c := by
    intro c hc
    simp only [Sys.init, List.mem_map] at hc
    obtain ⟨b, hb, rfl⟩ := hc
    rw [Call.start_bound _ b (hreq b hb).1]
    exact ⟨(hreq b hb).2, rfl, rfl, trivial⟩
  have hsum0 : ((Sys.init s bodies).calls.map Call.createdNat).sum = 0 := by
    apply List.sum_eq_zero
    intro x hx
    simp only [Sys.init, List.mem_map] at hx
    obtain ⟨c, ⟨b, hb, rfl⟩, rfl⟩ := hx
    rw [Call.start_bound _ b (hreq b hb).1]
    simp [Call.createdNat, Call.path?]
  have hlen0 : (Sys.init s bodies).calls.length = bodies.length := by
    simp [Sys.init]
  obtain ⟨g1, g2, g3, g4⟩ := run_spec e (s.rowsFor e) sched (Sys.init s bodies) hinit hu
    (by rw [hsum0]; simp [Sys.init])
  constructor
  · intro hcount c hc
    obtain ⟨i, hi⟩ := List.mem_iff_getElem?.1 hc
    have hlt : i < bodies.length := by
      have := (List.getElem?_eq_some.1 hi).1
      omega
    have h1 := run_remaining sched (Sys.init s bodies) i
    have h2 := remainingAt_le_three (Sys.init s bodies).calls i
    have h3 := hcount i hlt
    have h4 : remainingAt ((Sys.init s bodies).run sched).calls i = c.pc.remaining := by
      simp [remainingAt, hi]
    omega
  · intro hdone
    have hne : ((Sys.init s bodies).run sched).calls ≠ [] := by
      intro h
      rw [h] at g4
      simp at g4
      omega
    obtain ⟨c0, cs, hcs⟩ := List.exists_cons_of_ne_nil hne
    have hc0 : c0 ∈ ((Sys.init s bodies).run sched).calls := by rw [hcs]; simp
    have hrow : ∀ c ∈ ((Sys.init s bodies).run sched).calls,
        ∃ row, ((Sys.init s bodies).run sched).store.selectPayment e = some row ∧
          c.response? = some ⟨200, true, [.payment row]⟩ ∧
          (c.path? = some .created ∨ c.path? = some .alreadyExists) := by
      intro c hc
      have hg := (g1 c hc).2.2.2
      have hr := hdone c hc
      cases hpc : c.pc with
      | start => rw [hpc] at hr; simp [Pc.remaining] at hr
      | checked => rw [hpc] at hr; simp [Pc.remaining] at hr
      | conflict err => rw [hpc] at hr; simp [Pc.remaining] at hr
      | done r q =>
        rw [hpc] at hg
        obtain ⟨row, hsel, hresp, hq⟩ := hg
        refine ⟨row, hsel, by simp [Call.response?, hpc, hresp], ?_⟩
        rcases hq with h | h <;> simp [Call.path?, hpc, h]
    obtain ⟨row, hsel, _, _⟩ := hrow c0 hc0
    have hone := rowsFor_eq_one g2 hsel
    refine ⟨by rw [g4, hlen0], hone, ⟨row, selectPayment_some_externalId hsel, hsel, ?_⟩, ?_⟩
    · intro c hc
      obtain ⟨row2, hsel2, h2, h3⟩ := hrow c hc
      rw [hsel] at hsel2
      cases hsel2
      exact ⟨h2, h3⟩
    · have hle := rowsFor_le_one hu e
      unfold Sys.createdCount
      rw [createdCount_eq_sum]
      by_cases h0 : s.rowsFor e = 0
      · simp only [h0, if_true]; omega
      · simp only [h0, if_false]; omega

theorem createPayment_concurrent_witness :
    ((Sys.init ⟨[], [], 1, 1⟩
        [.object ⟨.absent, .value "ext-X", .value 500, .absent⟩,
         .object ⟨.absent, .value "ext-X", .value 7, .absent⟩]).run
        [0, 1, 1, 0, 0, 1]).createdCount = 1 :=
  ((createPayment_concurrent ⟨[], [], 1, 1⟩ (by decide) "ext-X"
      [.object ⟨.absent, .value "ext-X", .value 500, .absent⟩,
       .object ⟨.absent, .value "ext-X", .value 7, .absent⟩] (by decide) (by decide)
      [0, 1, 1, 0, 0, 1]).2
    ((createPayment_concurrent ⟨[], [], 1, 1⟩ (by decide) "ext-X"
      [.object ⟨.absent, .value "ext-X", .value 500, .absent⟩,
       .object ⟨.absent, .value "ext-X", .value 7, .absent⟩] (by decide) (by decide)
      [0, 1, 1, 0, 0, 1]).1 (by decide))).2.2.2

end SafeTransaction
